import Mathlib

/-!
Verification development for the spudLink packet-transport layer.

The definitions below are a shallow embedding of the Python sources:
  - `spudLink/circularBuffer.py`  (class CircularBuffer)
  - `spudLink/packetTool.py`      (class PacketTool)
  - `spudLink/ethernetLink.py`    (class EthernetLink, the disconnect path)
  - `spudLink/packetTypeEnum.py`, `spudLink/packetStatusEnum.py`

Modelling conventions:
  - Byte values travelling through the buffers are nonnegative Python ints,
    modelled as `Nat`.  Bitwise operations of the source (`& 0xff`, `<< 8`,
    `>> 8`) are kept as `Nat` bit operations (`&&&`, `<<<`, `>>>`).
  - Python exceptions become `Except PyError` results.  A raised and
    uncaught exception is modelled by the `.error` constructor.
  - Python `while` loops are modelled by structural recursion with an
    explicit fuel argument chosen so that, on well-formed states, the fuel
    never runs out before the loop condition fails (the relevant lemmas
    prove the loops drain under their real termination condition).
  - `array('i')` / `array('B')` scratch buffers are `List Nat`; a store
    into an `array('B')` checks the byte range exactly as CPython does
    (IndexError for a bad index, OverflowError for a value > 255).
-/

namespace SpudLink

/-- Python exception outcomes that the embedded code can raise. -/
inductive PyError where
  | noBytesAvailable
  | valueError
  | overflowError
  | indexError
  | attributeError
  | socketBroken
deriving Repr, DecidableEq

/-- Projection used to state facts about raised exceptions. -/
def exceptErr {α : Type} : Except PyError α → Option PyError
  | .error e => some e
  | .ok _ => none

/-! ## CircularBuffer (circularBuffer.py) -/

/-- State of `class CircularBuffer`.  `buffer` is Python's `array('i')`,
which `__init__` fills with `bufferSize + 1` zeros (the loop runs while
`i <= pBufferSize`). -/
structure CircularBuffer where
  bufferSize : Nat
  buffer : List Nat
  nextInsertIndex : Nat
  nextRetrieveIndex : Nat
deriving Repr, DecidableEq

namespace CircularBuffer

/-- `CircularBuffer.__init__(pBufferSize)`. -/
def init (pBufferSize : Nat) : CircularBuffer :=
  { bufferSize := pBufferSize
    buffer := List.replicate (pBufferSize + 1) 0
    nextInsertIndex := 0
    nextRetrieveIndex := 0 }

/-- `CircularBuffer.reset()`: pointers to 0, data not cleared. -/
def reset (cb : CircularBuffer) : CircularBuffer :=
  { cb with nextInsertIndex := 0, nextRetrieveIndex := 0 }

/-- `CircularBuffer.available()`. -/
def available (cb : CircularBuffer) : Nat :=
  if cb.nextRetrieveIndex ≤ cb.nextInsertIndex then
    cb.nextInsertIndex - cb.nextRetrieveIndex
  else
    (cb.bufferSize - cb.nextRetrieveIndex) + cb.nextInsertIndex

/-- `CircularBuffer.append(pValue)`: store at `nextInsertIndex`, advance,
wrap to 0 when the index reaches `bufferSize`. -/
def append (cb : CircularBuffer) (pValue : Nat) : CircularBuffer :=
  let buf := cb.buffer.set cb.nextInsertIndex pValue
  let ni := cb.nextInsertIndex + 1
  { cb with buffer := buf, nextInsertIndex := if ni = cb.bufferSize then 0 else ni }

/-- `CircularBuffer.retrieve()`: `none` models the `NoBytesAvailable`
exception raised when `available() == 0`. -/
def retrieve (cb : CircularBuffer) : Option (Nat × CircularBuffer) :=
  if cb.available = 0 then none
  else
    let value := cb.buffer.getD cb.nextRetrieveIndex 0
    let nr := cb.nextRetrieveIndex + 1
    some (value, { cb with nextRetrieveIndex := if nr = cb.bufferSize then 0 else nr })

/-- `retrieve` as an `Except`, for call sites where the exception
propagates to the caller. -/
def retrieveE (cb : CircularBuffer) : Except PyError (Nat × CircularBuffer) :=
  match cb.retrieve with
  | none => .error .noBytesAvailable
  | some p => .ok p

/-- `CircularBuffer.peek()`: `none` models `NoBytesAvailable`. -/
def peek (cb : CircularBuffer) : Option Nat :=
  if cb.available = 0 then none
  else some (cb.buffer.getD cb.nextRetrieveIndex 0)

/-- Loop body of `CircularBuffer.read`: `while count <= pNumBytesToRead`
stores `retrieve()` results at successive positions of `pBuffer`; the
`NoBytesAvailable` exception is caught and ends the loop, any other
exception (IndexError from a bad store index) propagates.  Fuel
`pNumBytesToRead + 1` is exactly the maximal number of iterations of the
source loop (`count` runs from 0 to `pNumBytesToRead` inclusive). -/
def readLoop : Nat → CircularBuffer → List Nat → Nat →
    Except PyError (CircularBuffer × List Nat × Nat)
  | 0, cb, pBuffer, i => .ok (cb, pBuffer, i)
  | fuel + 1, cb, pBuffer, i =>
    match cb.retrieve with
    | none => .ok (cb, pBuffer, i)
    | some (v, cb') =>
      if i < pBuffer.length then
        readLoop fuel cb' (pBuffer.set i v) (i + 1)
      else .error .indexError

/-- `CircularBuffer.read(pBuffer, pOffset, pNumBytesToRead)`: returns the
final buffer state, the updated `pBuffer`, and the returned index `i`. -/
def read (cb : CircularBuffer) (pBuffer : List Nat) (pOffset pNumBytesToRead : Nat) :
    Except PyError (CircularBuffer × List Nat × Nat) :=
  readLoop (pNumBytesToRead + 1) cb pBuffer pOffset

/-- Appending a whole list of values, one `append` at a time. -/
def appendList (cb : CircularBuffer) (vs : List Nat) : CircularBuffer :=
  vs.foldl append cb

/-- Well-formedness of a buffer state: every state reachable from
`init C` with `C > 0` satisfies this. -/
def WF (cb : CircularBuffer) : Prop :=
  0 < cb.bufferSize ∧ cb.nextInsertIndex < cb.bufferSize ∧
    cb.nextRetrieveIndex < cb.bufferSize ∧ cb.buffer.length = cb.bufferSize + 1

instance (cb : CircularBuffer) : Decidable cb.WF := by
  unfold WF; infer_instance

/-- The queue of values currently retrievable, oldest first: position
`(nextRetrieveIndex + k) % bufferSize` for `k < available`. -/
def contents (cb : CircularBuffer) : List Nat :=
  (List.range cb.available).map fun k =>
    cb.buffer.getD ((cb.nextRetrieveIndex + k) % cb.bufferSize) 0

end CircularBuffer

/-- The buffer operations a client can perform, for reachability
statements (`peek` does not change the state; a failed `retrieve` leaves
the state unchanged because the exception is raised before any field is
written). -/
inductive BufOp where
  | appendOp (v : Nat)
  | retrieveOp
  | peekOp
  | readOp (pOffset pNumBytesToRead : Nat)
  | resetOp
deriving Repr, DecidableEq

/-- Effect of one client operation on the buffer state. -/
def CircularBuffer.applyOp (cb : CircularBuffer) (op : BufOp) : CircularBuffer :=
  match op with
  | .appendOp v => cb.append v
  | .retrieveOp =>
    match cb.retrieve with
    | none => cb
    | some (_, cb') => cb'
  | .peekOp => cb
  | .readOp pOffset pNumBytesToRead =>
    match cb.read (List.replicate (pOffset + pNumBytesToRead + 2) 0) pOffset pNumBytesToRead with
    | .ok (cb', _, _) => cb'
    | .error _ => cb
  | .resetOp => cb.reset

/-- Run a sequence of client operations from a fresh buffer of capacity `C`. -/
def CircularBuffer.runOps (C : Nat) (ops : List BufOp) : CircularBuffer :=
  ops.foldl CircularBuffer.applyOp (CircularBuffer.init C)

/-! ## Enumerations (packetTypeEnum.py, packetStatusEnum.py) -/

/-- `class PacketTypeEnum(enum.Enum)`: the ten defined packet type codes. -/
inductive PacketTypeEnum where
  | NO_PKT
  | ACK_PKT
  | GET_DEVICE_INFO
  | LOG_MESSAGE
  | STOP_ALL_MOTORS
  | SET_MOTOR_SPEEDS
  | GET_MOTOR_SPEEDS
  | GET_ENCODER_VALUES
  | MOVE_BY_DISTANCE_AND_TIME
  | SHUT_DOWN_OPERATING_SYSTEM
deriving Repr, DecidableEq

namespace PacketTypeEnum

/-- The numeric value of each enumeration member. -/
def value : PacketTypeEnum → Nat
  | .NO_PKT => 0
  | .ACK_PKT => 1
  | .GET_DEVICE_INFO => 2
  | .LOG_MESSAGE => 3
  | .STOP_ALL_MOTORS => 11
  | .SET_MOTOR_SPEEDS => 12
  | .GET_MOTOR_SPEEDS => 13
  | .GET_ENCODER_VALUES => 14
  | .MOVE_BY_DISTANCE_AND_TIME => 15
  | .SHUT_DOWN_OPERATING_SYSTEM => 16

/-- Python's `PacketTypeEnum(value)` member lookup: `none` models the
`ValueError` that the Enum constructor raises for a value that is not a
member.  There is no member for unrecognized codes. -/
def ofValue (n : Nat) : Option PacketTypeEnum :=
  if n = 0 then some .NO_PKT
  else if n = 1 then some .ACK_PKT
  else if n = 2 then some .GET_DEVICE_INFO
  else if n = 3 then some .LOG_MESSAGE
  else if n = 11 then some .STOP_ALL_MOTORS
  else if n = 12 then some .SET_MOTOR_SPEEDS
  else if n = 13 then some .GET_MOTOR_SPEEDS
  else if n = 14 then some .GET_ENCODER_VALUES
  else if n = 15 then some .MOVE_BY_DISTANCE_AND_TIME
  else if n = 16 then some .SHUT_DOWN_OPERATING_SYSTEM
  else none

end PacketTypeEnum

/-- `class PacketStatusEnum(enum.Enum)`. -/
inductive PacketStatusEnum where
  | PACKET_VALID
  | UNKNOWN_PACKET_TYPE_ERROR
  | DUPLEX_MATCH_ERROR
  | LOG_MESSAGE
deriving Repr, DecidableEq

/-! ## PacketTool (packetTool.py) -/

/-- State of `class PacketTool`.  `inBuffer` and `outBuffer` are the
`array('i')` / `array('B')` scratch buffers which `__init__` fills with
`1024 + 1` zeros each (`while i <= self.IN_BUFFER_SIZE`).  `byteIn` is
the inbound `CircularBuffer` installed by `setStreams` (the claims below
all concern a tool whose streams are set; the `byteIn is None` early
return of `checkForPacketReady` is therefore not taken). -/
structure PacketTool where
  thisDeviceIdentifier : Nat
  inBuffer : List Nat
  outBuffer : List Nat
  byteIn : CircularBuffer
  pktType : PacketTypeEnum
  headerValid : Bool
  numPktDataBytes : Nat
  numDataBytesPlusChecksumByte : Nat
  pktChecksum : Nat
  destDeviceIdentifierFromReceivedPkt : Nat
  sourceDeviceIdentifierFromReceivedPkt : Nat
  resyncCount : Nat
deriving Repr, DecidableEq

namespace PacketTool

/-- `PacketTool.__init__(pThisDeviceIdentifier)` followed by
`setStreams(pInputStream, ...)` installing the inbound buffer. -/
def init (pThisDeviceIdentifier : Nat) (pInputStream : CircularBuffer) : PacketTool :=
  { thisDeviceIdentifier := pThisDeviceIdentifier
    inBuffer := List.replicate 1025 0
    outBuffer := List.replicate 1025 0
    byteIn := pInputStream
    pktType := .NO_PKT
    headerValid := false
    numPktDataBytes := 0
    numDataBytesPlusChecksumByte := 0
    pktChecksum := 0
    destDeviceIdentifierFromReceivedPkt := 0
    sourceDeviceIdentifierFromReceivedPkt := 0
    resyncCount := 0 }

/-- `PacketTool.peekForValue(pTargetValue)`: peek at the next inbound
byte; if it differs from the target it is retrieved and tossed.  An
empty buffer raises `NoBytesAvailable` out of `peek`. -/
def peekForValue (pt : PacketTool) (pTargetValue : Nat) :
    Except PyError (Bool × PacketTool) :=
  match pt.byteIn.peek with
  | none => .error .noBytesAvailable
  | some peekVal =>
    if peekVal ≠ pTargetValue then
      match pt.byteIn.retrieve with
      | none => .error .noBytesAvailable
      | some (_, cb') => .ok (false, { pt with byteIn := cb' })
    else .ok (true, pt)

/-- Loop of `PacketTool.resync`: `while self.byteIn.available() > 0`,
stop when `peekForValue(0xaa)` finds the sync byte.  On a well-formed
buffer every non-matching iteration removes one byte, so fuel equal to
the initial `available()` outlasts the real loop (the `.error` branch is
unreachable there because `available() > 0` guards the peek). -/
def resyncLoop : Nat → PacketTool → PacketTool
  | 0, pt => pt
  | fuel + 1, pt =>
    if pt.byteIn.available > 0 then
      match pt.peekForValue 0xaa with
      | .ok (true, pt') => pt'
      | .ok (false, pt') => resyncLoop fuel pt'
      | .error _ => pt
    else pt

/-- `PacketTool.resync()`: increment `resyncCount` and strip inbound
bytes until the buffer is empty or the next byte is 0xaa. -/
def resync (pt : PacketTool) : PacketTool :=
  let pt1 := { pt with resyncCount := pt.resyncCount + 1 }
  resyncLoop pt1.byteIn.available pt1

/-- `PacketTool.checkForPacketHeaderAvailable()`: needs 7 inbound bytes;
parses the two sync bytes (calling `resync` on a mismatch), destination,
source, packet type, and the 16-bit big-endian payload length, summing
every consumed byte into `pktChecksum`.  `PacketTypeEnum(pktTypeInt)`
raises `ValueError` for an unrecognized type code, modelled as
`.error .valueError` (the mutations already performed on `self` are
irrelevant to the callers once the exception propagates). -/
def checkForPacketHeaderAvailable (pt0 : PacketTool) : Except PyError PacketTool :=
  if pt0.byteIn.available < 7 then .ok pt0
  else
    let pt := { pt0 with pktChecksum := 0 }
    match pt.byteIn.retrieveE with
    | .error e => .error e
    | .ok (b0, cb0) =>
      let pt := { pt with byteIn := cb0 }
      if b0 ≠ 0xaa then .ok pt.resync
      else
        let pt := { pt with pktChecksum := pt.pktChecksum + 0xaa }
        match pt.byteIn.retrieveE with
        | .error e => .error e
        | .ok (b1, cb1) =>
          let pt := { pt with byteIn := cb1 }
          if b1 ≠ 0x55 then .ok pt.resync
          else
            let pt := { pt with pktChecksum := pt.pktChecksum + 0x55 }
            match pt.byteIn.retrieveE with
            | .error e => .error e
            | .ok (dest, cb2) =>
              let pt := { pt with byteIn := cb2,
                                  destDeviceIdentifierFromReceivedPkt := dest,
                                  pktChecksum := pt.pktChecksum + dest }
              match pt.byteIn.retrieveE with
              | .error e => .error e
              | .ok (src, cb3) =>
                let pt := { pt with byteIn := cb3,
                                    sourceDeviceIdentifierFromReceivedPkt := src,
                                    pktChecksum := pt.pktChecksum + src }
                match pt.byteIn.retrieveE with
                | .error e => .error e
                | .ok (pktTypeInt, cb4) =>
                  let pt := { pt with byteIn := cb4,
                                      pktChecksum := pt.pktChecksum + pktTypeInt }
                  match PacketTypeEnum.ofValue pktTypeInt with
                  | none => .error .valueError
                  | some t =>
                    let pt := { pt with pktType := t }
                    match pt.byteIn.retrieveE with
                    | .error e => .error e
                    | .ok (numPktDataBytesMSB, cb5) =>
                      let pt := { pt with byteIn := cb5,
                                          pktChecksum := pt.pktChecksum + numPktDataBytesMSB }
                      match pt.byteIn.retrieveE with
                      | .error e => .error e
                      | .ok (numPktDataBytesLSB, cb6) =>
                        let pt := { pt with byteIn := cb6,
                                            pktChecksum := pt.pktChecksum + numPktDataBytesLSB }
                        let n := ((numPktDataBytesMSB <<< 8) &&& 0xff00) +
                                   (numPktDataBytesLSB &&& 0xff)
                        .ok { pt with numPktDataBytes := n,
                                      numDataBytesPlusChecksumByte := n + 1,
                                      headerValid := true }

/-- `PacketTool.checkForPacketReady()`: header search, then wait for
`numDataBytesPlusChecksumByte` bytes, consume them via
`CircularBuffer.read` into `inBuffer`, and accept iff the destination id
matches this device and the total checksum has a zero low byte
(`pktChecksum & 0xff == 0`, written `&&& 0xff` on `Nat`). -/
def checkForPacketReady (pt0 : PacketTool) : Except PyError (Bool × PacketTool) :=
  match (if pt0.headerValid then .ok pt0 else pt0.checkForPacketHeaderAvailable : Except PyError PacketTool) with
  | .error e => .error e
  | .ok pt =>
    if ¬ pt.headerValid then .ok (false, pt)
    else
      let numBytesAvailable := pt.byteIn.available
      if numBytesAvailable < pt.numDataBytesPlusChecksumByte then .ok (false, pt)
      else
        let pt := { pt with headerValid := false }
        match pt.byteIn.read pt.inBuffer 0 pt.numDataBytesPlusChecksumByte with
        | .error e => .error e
        | .ok (cb', buf', _) =>
          let pt := { pt with byteIn := cb', inBuffer := buf' }
          if pt.destDeviceIdentifierFromReceivedPkt ≠ pt.thisDeviceIdentifier then
            .ok (false, pt)
          else
            let pt := { pt with
              pktChecksum := pt.pktChecksum +
                (pt.inBuffer.take pt.numDataBytesPlusChecksumByte).sum }
            if pt.pktChecksum &&& 0xff ≠ 0 then .ok (false, pt)
            else .ok (true, pt)

/-- A store `buf[i] = v` into Python's `array('B')`: IndexError for an
out-of-range index, OverflowError for a value that is not a byte. -/
def storeByte (buf : List Nat) (i v : Nat) : Except PyError (List Nat) :=
  if buf.length ≤ i then .error .indexError
  else if 255 < v then .error .overflowError
  else .ok (buf.set i v)

/-- `PacketTool.prepareHeader(pDestAddress, pPacketType, pNumDataBytes)`:
writes the 7 header bytes at the start of `outBuffer` and returns the
next free index. -/
def prepareHeader (pt : PacketTool) (pDestAddress : Nat) (pPacketType : PacketTypeEnum)
    (pNumDataBytes : Nat) : Except PyError (PacketTool × Nat) :=
  match storeByte pt.outBuffer 0 0xaa with
  | .error e => .error e
  | .ok b =>
    match storeByte b 1 0x55 with
    | .error e => .error e
    | .ok b =>
      match storeByte b 2 pDestAddress with
      | .error e => .error e
      | .ok b =>
        match storeByte b 3 pt.thisDeviceIdentifier with
        | .error e => .error e
        | .ok b =>
          match storeByte b 4 pPacketType.value with
          | .error e => .error e
          | .ok b =>
            match storeByte b 5 ((pNumDataBytes >>> 8) &&& 0xff) with
            | .error e => .error e
            | .ok b =>
              match storeByte b 6 (pNumDataBytes &&& 0xff) with
              | .error e => .error e
              | .ok b => .ok ({ pt with outBuffer := b }, 7)

/-- Copy loop of `PacketTool.sendString`: `while i < msgLength` store the
message bytes from index `x` on, breaking when `x` reaches
`OUT_BUFFER_SIZE - 2 = 1022`. -/
def copyMsgLoop : List Nat → List Nat → Nat → Except PyError (List Nat × Nat)
  | [], buf, x => .ok (buf, x)
  | v :: rest, buf, x =>
    match storeByte buf x v with
    | .error e => .error e
    | .ok buf' =>
      if x + 1 = 1022 then .ok (buf', x + 1)
      else copyMsgLoop rest buf' (x + 1)

/-- `PacketTool.sendString(pDestAddress, pPacketType, pString)`.  The
encoded string is passed as its list of UTF-8 byte values.  The returned
list is the frame `outBuffer[0:x]` handed to `sendOutBuffer` (the socket
write itself is outside this model).  The checksum byte is stored as
`0x100 - (checksum & 0xff)` — with no reduction mod 256, so the store
raises OverflowError whenever `checksum & 0xff == 0` makes it 256. -/
def sendString (pt : PacketTool) (pDestAddress : Nat) (pPacketType : PacketTypeEnum)
    (msgBytes : List Nat) : Except PyError (PacketTool × List Nat) :=
  let msgLengthPlusNullTerminator := msgBytes.length + 1
  match pt.prepareHeader pDestAddress pPacketType msgLengthPlusNullTerminator with
  | .error e => .error e
  | .ok (pt, x) =>
    match copyMsgLoop msgBytes pt.outBuffer x with
    | .error e => .error e
    | .ok (buf, x) =>
      let next :=
        if x < 1023 then
          match storeByte buf x 0 with
          | .error e => Except.error e
          | .ok b => Except.ok (b, x + 1)
        else .ok (buf, x)
      match next with
      | .error e => .error e
      | .ok (buf, x) =>
        let checksum := (buf.take x).sum
        match storeByte buf x (0x100 - (checksum &&& 0xff)) with
        | .error e => .error e
        | .ok buf =>
          .ok ({ pt with outBuffer := buf }, buf.take (x + 1))

/-- `PacketTool.signExtend(pValue, pBits)` for the nonnegative values the
program feeds it: `(pValue & mask) - (pValue & signBit)` with
`signBit = 1 << (pBits - 1)` and `mask = signBit - 1`, as a
mathematical integer. -/
def signExtend (pValue : Nat) (pBits : Nat) : Int :=
  let signBit : Nat := 1 <<< (pBits - 1)
  let mask : Nat := signBit - 1
  ((pValue &&& mask : Nat) : Int) - ((pValue &&& signBit : Nat) : Int)

/-- `PacketTool.parseDuplexIntegerFromPacket(pIndex)`: reads a 16-bit
big-endian value and its duplicate from `inBuffer`, sign-extends both,
advances the index by 4, and reports `DUPLEX_MATCH_ERROR` when the two
differ.  (`List.getD` agrees with Python's indexing whenever
`pIndex + 4 <= len(inBuffer)`, which the claims assume.) -/
def parseDuplexIntegerFromPacket (pt : PacketTool) (pIndex : Nat) :
    PacketStatusEnum × Nat × Int :=
  let valueMSB := pt.inBuffer.getD pIndex 0
  let valueLSB := pt.inBuffer.getD (pIndex + 1) 0
  let value := signExtend (((valueMSB <<< 8) &&& 0xff00) + (valueLSB &&& 0xff)) 16
  let copyMSB := pt.inBuffer.getD (pIndex + 2) 0
  let copyLSB := pt.inBuffer.getD (pIndex + 3) 0
  let copy := signExtend (((copyMSB <<< 8) &&& 0xff00) + (copyLSB &&& 0xff)) 16
  let status := if value = copy then PacketStatusEnum.PACKET_VALID
                else PacketStatusEnum.DUPLEX_MATCH_ERROR
  (status, pIndex + 4, value)

end PacketTool

/-! ## EthernetLink (ethernetLink.py), the disconnect path -/

/-- Behaviour of the peer socket during teardown: whether `shutdown` and
`close` raise `OSError`. -/
structure SocketState where
  shutdownRaisesOSError : Bool
  closeRaisesOSError : Bool
deriving Repr, DecidableEq

/-- The `EthernetLink` state relevant to `disconnect`: the inbound
receive buffer, the `connected` flag, and `clientSocket`, which is
`None` until the first connection is accepted. -/
structure EthernetLink where
  receiveBuf : CircularBuffer
  connected : Bool
  clientSocket : Option SocketState
deriving Repr, DecidableEq

namespace EthernetLink

/-- `EthernetLink.__init__`: `RECEIVE_BUFFER_SIZE = 50`, not connected,
`clientSocket = None` (no connection has ever been accepted). -/
def init : EthernetLink :=
  { receiveBuf := CircularBuffer.init 50, connected := false, clientSocket := none }

/-- `EthernetLink.disconnect()`: resets the receive buffer and clears the
`connected` flag, then `clientSocket.shutdown(...)` inside
`try/except OSError` (an `OSError` is printed and ignored) and
`clientSocket.close()` whose `OSError` is re-raised as `SocketBroken`.
When `clientSocket` is `None`, `None.shutdown` raises `AttributeError`,
which is not an `OSError` and is not caught. -/
def disconnect (e : EthernetLink) : EthernetLink × Except PyError Int :=
  let e1 := { e with receiveBuf := e.receiveBuf.reset, connected := false }
  match e1.clientSocket with
  | none => (e1, .error .attributeError)
  | some s =>
    -- s.shutdownRaisesOSError is caught by the first try/except and ignored
    if s.closeRaisesOSError then (e1, .error .socketBroken)
    else (e1, .ok 0)

end EthernetLink

/-! ## Specification-side definitions used for comparison -/

/-- Decoding of a big-endian 16-bit two's-complement integer from its two
byte values, following the specification's words (spec section 4.3,
field parsers). -/
def specBigEndianInt16 (msb lsb : Nat) : Int :=
  let raw := (msb % 256) * 256 + lsb % 256
  if raw < 32768 then (raw : Int) else (raw : Int) - 65536

/-- The 7 header byte values that `prepareHeader(pDestAddress, pPacketType,
pNumDataBytes)` writes for a tool whose own identifier is `thisId`. -/
def headerBytes (dest thisId : Nat) (ptype : PacketTypeEnum) (n : Nat) : List Nat :=
  [0xaa, 0x55, dest, thisId, ptype.value, (n >>> 8) &&& 0xff, n &&& 0xff]

/-- A receiving tool for device `thisId` whose inbound buffer of capacity `C`
has been fed the given byte stream (as the Connection Manager's pump does). -/
def mkReceiver (thisId C : Nat) (stream : List Nat) : PacketTool :=
  PacketTool.init thisId ((CircularBuffer.init C).appendList stream)

/-! ### Concrete example inputs used by the evaluation theorems -/

/-- Device 0; inbound: a complete valid empty-payload packet addressed to this
device (`AA 55 00 02 00 00 00 FF`, byte sum 512 ≡ 0 mod 256) followed by the
first sync byte 0xAA of the next packet. -/
def c2ExampleTool : PacketTool :=
  mkReceiver 0 20 [0xaa, 0x55, 0, 2, 0, 0, 0, 0xff, 0xaa]

/-- Device 0; inbound: a header with the undefined packet type code 4. -/
def c3ExampleTool : PacketTool :=
  mkReceiver 0 20 [0xaa, 0x55, 0, 2, 4, 0, 0]

/-- Device 0 with an empty inbound buffer, used for outbound sends. -/
def c4ExampleTool : PacketTool :=
  PacketTool.init 0 (CircularBuffer.init 1)

/-- Device 0; inbound: two garbage bytes, then 0xAA, then one more byte. -/
def c7ExampleTool : PacketTool :=
  mkReceiver 0 8 [1, 2, 0xaa, 5]

/-- A tool whose packet-data scratch buffer holds the duplex encoding of
primary value 100 and duplicate value 101. -/
def c9ExampleTool : PacketTool :=
  { PacketTool.init 0 (CircularBuffer.init 1) with inBuffer := [0, 100, 0, 101] }

/-- A link with an accepted connection whose socket fails on `shutdown` but
closes cleanly. -/
def c8ExampleLink : EthernetLink :=
  { receiveBuf := CircularBuffer.init 50, connected := true,
    clientSocket := some { shutdownRaisesOSError := true, closeRaisesOSError := false } }

/-! ## Lemmas about CircularBuffer -/

namespace CircularBuffer

theorem mod_small_cases {x C : Nat} (h : x < 2 * C) :
    x % C = if x < C then x else x - C := by
  split
  · exact Nat.mod_eq_of_lt (by assumption)
  · rw [Nat.mod_eq_sub_mod (by omega)]
    exact Nat.mod_eq_of_lt (by omega)

theorem wf_init {C : Nat} (hC : 0 < C) : (init C).WF := by
  refine ⟨hC, hC, hC, ?_⟩
  simp [init]

theorem contents_length (cb : CircularBuffer) : cb.contents.length = cb.available := by
  simp [contents]

theorem available_init (C : Nat) : (init C).available = 0 := by
  simp [init, available]

theorem contents_init (C : Nat) : (init C).contents = [] := by
  simp [contents, available_init]

theorem available_lt {cb : CircularBuffer} (h : cb.WF) :
    cb.available < cb.bufferSize := by
  obtain ⟨h0, hi, hr, _⟩ := h
  unfold available
  split <;> omega

theorem insertIndex_eq {cb : CircularBuffer} (h : cb.WF) :
    (cb.nextRetrieveIndex + cb.available) % cb.bufferSize = cb.nextInsertIndex := by
  obtain ⟨h0, hi, hr, _⟩ := h
  unfold available
  rw [mod_small_cases (by split <;> omega)]
  split <;> split <;> omega

theorem wf_append {cb : CircularBuffer} (h : cb.WF) (v : Nat) : (cb.append v).WF := by
  obtain ⟨h0, hi, hr, hl⟩ := h
  refine ⟨h0, ?_, hr, ?_⟩
  · simp only [append]
    split <;> omega
  · simp [append, hl]

theorem append_retrieveIndex (cb : CircularBuffer) (v : Nat) :
    (cb.append v).nextRetrieveIndex = cb.nextRetrieveIndex := rfl

theorem append_bufferSize (cb : CircularBuffer) (v : Nat) :
    (cb.append v).bufferSize = cb.bufferSize := rfl

theorem append_buffer (cb : CircularBuffer) (v : Nat) :
    (cb.append v).buffer = cb.buffer.set cb.nextInsertIndex v := rfl

theorem available_append {cb : CircularBuffer} (h : cb.WF) (v : Nat) :
    (cb.append v).available =
      if cb.available = cb.bufferSize - 1 then 0 else cb.available + 1 := by
  obtain ⟨h0, hi, hr, _⟩ := h
  simp only [append, available]
  split_ifs <;> omega

theorem contents_append {cb : CircularBuffer} (h : cb.WF)
    (hroom : cb.available < cb.bufferSize - 1) (v : Nat) :
    (cb.append v).contents = cb.contents ++ [v] := by
  have havail : (cb.append v).available = cb.available + 1 := by
    rw [available_append h v]
    split
    · omega
    · rfl
  obtain ⟨h0, hi, hr, hl⟩ := h
  unfold contents
  rw [havail, append_retrieveIndex, append_bufferSize, append_buffer]
  rw [List.range_succ, List.map_append, List.map_singleton]
  congr 1
  · apply List.map_congr_left
    intro k hk
    rw [List.mem_range] at hk
    have hne : (cb.nextRetrieveIndex + k) % cb.bufferSize ≠ cb.nextInsertIndex := by
      have hins := insertIndex_eq ⟨h0, hi, hr, hl⟩
      have hglt := available_lt ⟨h0, hi, hr, hl⟩
      have e1 := mod_small_cases (C := cb.bufferSize)
        (x := cb.nextRetrieveIndex + k) (by omega)
      have e2 := mod_small_cases (C := cb.bufferSize)
        (x := cb.nextRetrieveIndex + cb.available) (by omega)
      rw [e2] at hins
      rw [e1]
      split at hins <;> split <;> omega
    simp only [List.getD_eq_getElem?_getD]
    rw [List.getElem?_set_ne (fun hx => hne hx.symm)]
  · simp only [List.getD_eq_getElem?_getD]
    rw [insertIndex_eq ⟨h0, hi, hr, hl⟩,
      List.getElem?_set_self (by omega)]
    rfl

theorem contents_append_full {cb : CircularBuffer} (h : cb.WF)
    (hfull : cb.available = cb.bufferSize - 1) (v : Nat) :
    (cb.append v).contents = [] := by
  have havail : (cb.append v).available = 0 := by
    rw [available_append h v]
    simp [hfull]
  simp [contents, havail]

theorem retrieve_cons {cb : CircularBuffer} {v : Nat} {L : List Nat} (h : cb.WF)
    (hc : cb.contents = v :: L) :
    ∃ cb', cb.retrieve = some (v, cb') ∧ cb'.WF ∧ cb'.contents = L ∧
      cb'.nextInsertIndex = cb.nextInsertIndex ∧ cb'.bufferSize = cb.bufferSize ∧
      cb'.buffer = cb.buffer ∧ cb'.available = cb.available - 1 := by
  obtain ⟨h0, hi, hr, hl⟩ := h
  have hlen : cb.available = L.length + 1 := by
    have := contents_length cb
    rw [hc] at this
    simpa using this.symm
  have hpos : cb.available ≠ 0 := by omega
  have hhead : cb.buffer.getD cb.nextRetrieveIndex 0 = v := by
    have hh : cb.contents.head? = some v := by rw [hc]; rfl
    rw [contents, hlen, List.range_succ_eq_map] at hh
    simp only [List.map_cons, List.head?_cons, Option.some_inj] at hh
    rw [Nat.add_zero, Nat.mod_eq_of_lt hr] at hh
    exact hh
  refine ⟨{ cb with nextRetrieveIndex := if cb.nextRetrieveIndex + 1 = cb.bufferSize
      then 0 else cb.nextRetrieveIndex + 1 }, ?_, ?_, ?_, rfl, rfl, rfl, ?_⟩
  · unfold retrieve
    rw [if_neg hpos, hhead]
  · refine ⟨h0, hi, ?_, hl⟩
    simp only
    split <;> omega
  · have havail' :
        (if cb.nextRetrieveIndex + 1 = cb.bufferSize then 0 else cb.nextRetrieveIndex + 1) =
          (cb.nextRetrieveIndex + 1) % cb.bufferSize := by
      rw [mod_small_cases (by omega)]
      split_ifs <;> omega
    have htail : L = (List.range L.length).map fun k =>
        cb.buffer.getD ((cb.nextRetrieveIndex + (k + 1)) % cb.bufferSize) 0 := by
      have hcc := hc
      rw [contents, hlen, List.range_succ_eq_map, List.map_cons] at hcc
      have ht := congrArg List.tail hcc
      simp only [List.tail_cons, List.map_map] at ht
      refine ht.symm.trans ?_
      apply List.map_congr_left
      intro k _
      simp [Function.comp, Nat.succ_eq_add_one, Nat.add_comm k 1, Nat.add_assoc]
    have havx : ({ cb with nextRetrieveIndex := if cb.nextRetrieveIndex + 1 = cb.bufferSize
        then 0 else cb.nextRetrieveIndex + 1 } : CircularBuffer).available = L.length := by
      show (if (if cb.nextRetrieveIndex + 1 = cb.bufferSize then 0 else cb.nextRetrieveIndex + 1) ≤
          cb.nextInsertIndex then
            cb.nextInsertIndex -
              (if cb.nextRetrieveIndex + 1 = cb.bufferSize then 0 else cb.nextRetrieveIndex + 1)
          else (cb.bufferSize -
              (if cb.nextRetrieveIndex + 1 = cb.bufferSize then 0 else cb.nextRetrieveIndex + 1)) +
            cb.nextInsertIndex) = L.length
      unfold available at hlen
      split_ifs at hlen ⊢ <;> omega
    rw [contents, havx]
    conv_rhs => rw [htail]
    apply List.map_congr_left
    intro k _
    have hix : ((if cb.nextRetrieveIndex + 1 = cb.bufferSize then 0
        else cb.nextRetrieveIndex + 1) + k) % cb.bufferSize =
          (cb.nextRetrieveIndex + (k + 1)) % cb.bufferSize := by
      rw [havail', Nat.mod_add_mod]
      congr 1
      omega
    show cb.buffer.getD (((if cb.nextRetrieveIndex + 1 = cb.bufferSize then 0
        else cb.nextRetrieveIndex + 1) + k) % cb.bufferSize) 0 = _
    rw [hix]
  · show (if (if cb.nextRetrieveIndex + 1 = cb.bufferSize then 0 else cb.nextRetrieveIndex + 1) ≤
        cb.nextInsertIndex then
          cb.nextInsertIndex -
            (if cb.nextRetrieveIndex + 1 = cb.bufferSize then 0 else cb.nextRetrieveIndex + 1)
        else (cb.bufferSize -
            (if cb.nextRetrieveIndex + 1 = cb.bufferSize then 0 else cb.nextRetrieveIndex + 1)) +
          cb.nextInsertIndex) = cb.available - 1
    unfold available at hlen ⊢
    split_ifs at hlen ⊢ <;> omega

theorem retrieve_none {cb : CircularBuffer} :
    cb.retrieve = none ↔ cb.available = 0 := by
  unfold retrieve
  split_ifs with h
  · simp [h]
  · simp [h]

theorem wf_retrieve {cb cb' : CircularBuffer} {v : Nat} (h : cb.WF)
    (hr : cb.retrieve = some (v, cb')) : cb'.WF := by
  have hpos : cb.available ≠ 0 := by
    intro h0
    rw [← retrieve_none] at h0
    rw [h0] at hr
    exact Option.noConfusion hr
  have hlen := contents_length cb
  obtain ⟨w, L, hc⟩ : ∃ w L, cb.contents = w :: L := by
    cases hcc : cb.contents with
    | nil => rw [hcc] at hlen; simp at hlen; omega
    | cons w L => exact ⟨w, L, rfl⟩
  obtain ⟨cb'', heq, hwf, _⟩ := retrieve_cons h hc
  rw [heq] at hr
  injection hr with hr1
  injection hr1 with _ hr2
  rw [← hr2]
  exact hwf

theorem peek_head {cb : CircularBuffer} {v : Nat} {L : List Nat} (h : cb.WF)
    (hc : cb.contents = v :: L) : cb.peek = some v := by
  obtain ⟨cb', heq, _⟩ := retrieve_cons h hc
  have hpos : cb.available ≠ 0 := by
    intro h0
    have := retrieve_none.mpr h0
    rw [this] at heq
    exact Option.noConfusion heq
  unfold peek
  rw [if_neg hpos]
  unfold retrieve at heq
  rw [if_neg hpos] at heq
  injection heq with heq1
  injection heq1 with heq2 _
  rw [heq2]

theorem contents_appendList {cb : CircularBuffer} (h : cb.WF) {vs : List Nat}
    (hroom : cb.available + vs.length ≤ cb.bufferSize - 1) :
    (cb.appendList vs).WF ∧ (cb.appendList vs).contents = cb.contents ++ vs ∧
      (cb.appendList vs).nextRetrieveIndex = cb.nextRetrieveIndex ∧
      (cb.appendList vs).bufferSize = cb.bufferSize ∧
      (cb.appendList vs).available = cb.available + vs.length := by
  induction vs generalizing cb with
  | nil => exact ⟨h, by simp [appendList], rfl, rfl, by simp [appendList]⟩
  | cons v rest ih =>
    have hlt : cb.available < cb.bufferSize - 1 := by
      simp only [List.length_cons] at hroom
      omega
    have hwf1 := wf_append h v
    have hav1 : (cb.append v).available = cb.available + 1 := by
      rw [available_append h v]
      split
      · omega
      · rfl
    have hroom1 : (cb.append v).available + rest.length ≤ (cb.append v).bufferSize - 1 := by
      rw [hav1, append_bufferSize]
      simp only [List.length_cons] at hroom
      omega
    have hstep := contents_append h hlt v
    obtain ⟨hw, hc, hrr, hbb, hav⟩ := ih hwf1 hroom1
    refine ⟨hw, ?_, ?_, ?_, ?_⟩
    · rw [show cb.appendList (v :: rest) = (cb.append v).appendList rest from rfl,
        hc, hstep]
      simp
    · rw [show cb.appendList (v :: rest) = (cb.append v).appendList rest from rfl, hrr]
      rfl
    · rw [show cb.appendList (v :: rest) = (cb.append v).appendList rest from rfl, hbb]
      rfl
    · rw [show cb.appendList (v :: rest) = (cb.append v).appendList rest from rfl, hav,
        hav1]
      simp
      omega

theorem readLoop_drain {L : List Nat} :
    ∀ (fuel : Nat) (cb : CircularBuffer) (pBuffer : List Nat) (i : Nat), cb.WF →
      cb.contents = L → L.length < fuel → i + L.length ≤ pBuffer.length →
      ∃ cb', readLoop fuel cb pBuffer i =
          .ok (cb', pBuffer.take i ++ L ++ pBuffer.drop (i + L.length), i + L.length) ∧
        cb'.WF ∧ cb'.available = 0 := by
  induction L with
  | nil =>
    intro fuel cb pBuffer i h hc hfuel hlen
    have hav : cb.available = 0 := by
      have := contents_length cb
      rw [hc] at this
      simpa using this.symm
    obtain ⟨f, rfl⟩ : ∃ f, fuel = f + 1 := ⟨fuel - 1, by omega⟩
    refine ⟨cb, ?_, h, hav⟩
    unfold readLoop
    rw [retrieve_none.mpr hav]
    simp [List.take_append_drop]
  | cons v rest ih =>
    intro fuel cb pBuffer i h hc hfuel hlen
    obtain ⟨f, rfl⟩ : ∃ f, fuel = f + 1 := ⟨fuel - 1, by omega⟩
    obtain ⟨cb1, hret, hwf1, hc1, _, _, _, hav1⟩ := retrieve_cons h hc
    have hilt : i < pBuffer.length := by
      simp only [List.length_cons] at hlen
      omega
    have hstep : readLoop (f + 1) cb pBuffer i = readLoop f cb1 (pBuffer.set i v) (i + 1) := by
      conv_lhs => unfold readLoop
      rw [hret]
      simp [hilt]
    obtain ⟨cb', hrec, hwf', hav'⟩ := ih f cb1 (pBuffer.set i v) (i + 1) hwf1 hc1
      (by simp only [List.length_cons] at hfuel; omega)
      (by simp only [List.length_cons] at hlen; simp [List.length_set]; omega)
    refine ⟨cb', ?_, hwf', hav'⟩
    rw [hstep, hrec]
    have htake : (pBuffer.set i v).take (i + 1) = pBuffer.take i ++ [v] := by
      rw [List.set_eq_take_append_cons_drop, if_pos hilt]
      have hlt : (pBuffer.take i).length = i := by
        rw [List.length_take]
        omega
      have : i + 1 = (pBuffer.take i).length + 1 := by omega
      rw [this, List.take_append]
      simp
    have hdrop : (pBuffer.set i v).drop (i + 1 + rest.length) = pBuffer.drop (i + 1 + rest.length) :=
      List.drop_set_of_lt _ _ (by omega)
    rw [htake, hdrop]
    have harith : i + 1 + rest.length = i + (v :: rest).length := by
      simp
      omega
    rw [harith]
    simp

theorem readLoop_wf :
    ∀ (fuel : Nat) (cb : CircularBuffer) (pBuffer : List Nat) (i : Nat), cb.WF →
      ∀ cb' buf' j, readLoop fuel cb pBuffer i = .ok (cb', buf', j) → cb'.WF := by
  intro fuel
  induction fuel with
  | zero =>
    intro cb pBuffer i h cb' buf' j heq
    unfold readLoop at heq
    injection heq with heq
    injection heq with h1 _
    rw [← h1]
    exact h
  | succ f ih =>
    intro cb pBuffer i h cb' buf' j heq
    unfold readLoop at heq
    cases hret : cb.retrieve with
    | none =>
      rw [hret] at heq
      injection heq with heq
      injection heq with h1 _
      rw [← h1]
      exact h
    | some p =>
      obtain ⟨v, cb1⟩ := p
      rw [hret] at heq
      simp only at heq
      split at heq
      · exact ih cb1 (pBuffer.set i v) (i + 1) (wf_retrieve h hret) cb' buf' j heq
      · exact absurd heq (by simp)

theorem wf_reset {cb : CircularBuffer} (h : cb.WF) : cb.reset.WF := by
  obtain ⟨h0, _, _, hl⟩ := h
  exact ⟨h0, h0, h0, hl⟩

theorem wf_applyOp {cb : CircularBuffer} (h : cb.WF) (op : BufOp) : (cb.applyOp op).WF := by
  cases op with
  | appendOp v => exact wf_append h v
  | retrieveOp =>
    simp only [applyOp]
    cases hret : cb.retrieve with
    | none => exact h
    | some p =>
      obtain ⟨v, cb1⟩ := p
      exact wf_retrieve h hret
  | peekOp => exact h
  | readOp pOffset pNumBytesToRead =>
    simp only [applyOp]
    cases hres : cb.read (List.replicate (pOffset + pNumBytesToRead + 2) 0) pOffset pNumBytesToRead with
    | error e => exact h
    | ok r =>
      obtain ⟨cb', buf', j⟩ := r
      exact readLoop_wf _ cb _ pOffset h cb' buf' j hres
  | resetOp => exact wf_reset h

theorem wf_foldl {cb : CircularBuffer} (h : cb.WF) (ops : List BufOp) :
    (ops.foldl CircularBuffer.applyOp cb).WF := by
  induction ops generalizing cb with
  | nil => exact h
  | cons op rest ih => exact ih (wf_applyOp h op)

theorem wf_runOps {C : Nat} (hC : 0 < C) (ops : List BufOp) : (runOps C ops).WF :=
  wf_foldl (wf_init hC) ops

theorem appendList_indices {cb : CircularBuffer} (h : cb.WF) (vs : List Nat) :
    (cb.appendList vs).nextInsertIndex = (cb.nextInsertIndex + vs.length) % cb.bufferSize ∧
      (cb.appendList vs).nextRetrieveIndex = cb.nextRetrieveIndex ∧
      (cb.appendList vs).bufferSize = cb.bufferSize ∧ (cb.appendList vs).WF := by
  induction vs generalizing cb with
  | nil =>
    obtain ⟨h0, hi, hr, hl⟩ := h
    exact ⟨(Nat.mod_eq_of_lt hi).symm, rfl, rfl, ⟨h0, hi, hr, hl⟩⟩
  | cons v rest ih =>
    obtain ⟨h0, hi, hr, hl⟩ := h
    have hstep : cb.appendList (v :: rest) = (cb.append v).appendList rest := rfl
    obtain ⟨ha, hb, hc, hd⟩ := ih (wf_append ⟨h0, hi, hr, hl⟩ v)
    have hins1 : (cb.append v).nextInsertIndex = (cb.nextInsertIndex + 1) % cb.bufferSize := by
      show (if cb.nextInsertIndex + 1 = cb.bufferSize then 0 else cb.nextInsertIndex + 1) =
        (cb.nextInsertIndex + 1) % cb.bufferSize
      rw [mod_small_cases (by omega)]
      split_ifs <;> omega
    refine ⟨?_, ?_, ?_, ?_⟩
    · rw [hstep, ha, hins1, append_bufferSize, Nat.mod_add_mod]
      congr 1
      simp
      omega
    · rw [hstep, hb, append_retrieveIndex]
    · rw [hstep, hc, append_bufferSize]
    · rw [hstep]
      exact hd

theorem retrieve_bufferSize {cb cb' : CircularBuffer} {v : Nat}
    (hr : cb.retrieve = some (v, cb')) : cb'.bufferSize = cb.bufferSize := by
  unfold retrieve at hr
  split_ifs at hr with h
  simp only [Option.some.injEq, Prod.mk.injEq] at hr
  obtain ⟨_, h2⟩ := hr
  rw [← h2]

theorem readLoop_bufferSize :
    ∀ (fuel : Nat) (cb : CircularBuffer) (buf : List Nat) (i : Nat)
      (cb' : CircularBuffer) (buf' : List Nat) (j : Nat),
      readLoop fuel cb buf i = .ok (cb', buf', j) → cb'.bufferSize = cb.bufferSize := by
  intro fuel
  induction fuel with
  | zero =>
    intro cb buf i cb' buf' j heq
    unfold readLoop at heq
    injection heq with heq
    injection heq with h1 _
    rw [← h1]
  | succ f ih =>
    intro cb buf i cb' buf' j heq
    unfold readLoop at heq
    cases hret : cb.retrieve with
    | none =>
      rw [hret] at heq
      injection heq with heq
      injection heq with h1 _
      rw [← h1]
    | some p =>
      obtain ⟨v, cb1⟩ := p
      rw [hret] at heq
      simp only at heq
      split at heq
      · rw [ih cb1 (buf.set i v) (i + 1) cb' buf' j heq]
        exact retrieve_bufferSize hret
      · exact absurd heq (by simp)

theorem applyOp_bufferSize (cb : CircularBuffer) (op : BufOp) :
    (cb.applyOp op).bufferSize = cb.bufferSize := by
  cases op with
  | appendOp v => rfl
  | retrieveOp =>
    simp only [applyOp]
    cases hret : cb.retrieve with
    | none => rfl
    | some p =>
      obtain ⟨v, cb1⟩ := p
      exact retrieve_bufferSize hret
  | peekOp => rfl
  | readOp a b =>
    simp only [applyOp]
    cases hres : cb.read (List.replicate (a + b + 2) 0) a b with
    | error e => rfl
    | ok r =>
      obtain ⟨cb', buf', j⟩ := r
      exact readLoop_bufferSize (b + 1) cb _ a cb' buf' j hres
  | resetOp => rfl

theorem foldl_bufferSize (ops : List BufOp) :
    ∀ cb : CircularBuffer, (ops.foldl applyOp cb).bufferSize = cb.bufferSize := by
  induction ops with
  | nil => intro cb; rfl
  | cons op rest ih =>
    intro cb
    rw [List.foldl_cons, ih, applyOp_bufferSize]

end CircularBuffer

/-! ## Bitwise arithmetic helpers -/

theorem and_255_eq_mod (n : Nat) : n &&& 255 = n % 256 := by
  have h := Nat.and_pow_two_sub_one_eq_mod n 8
  norm_num at h
  exact h

theorem and_ff00_shift (m : Nat) : (m <<< 8) &&& 0xff00 = (m &&& 0xff) <<< 8 := by
  apply Nat.eq_of_testBit_eq
  intro i
  simp only [Nat.testBit_and, Nat.testBit_shiftLeft]
  rcases Nat.lt_or_ge i 8 with h | h
  · have hd : decide (i ≥ 8) = false := by simp; omega
    simp [hd]
  · rcases Nat.lt_or_ge i 16 with h2 | h2
    · interval_cases i <;>
        simp [show Nat.testBit 65280 8 = true from by decide,
          show Nat.testBit 65280 9 = true from by decide,
          show Nat.testBit 65280 10 = true from by decide,
          show Nat.testBit 65280 11 = true from by decide,
          show Nat.testBit 65280 12 = true from by decide,
          show Nat.testBit 65280 13 = true from by decide,
          show Nat.testBit 65280 14 = true from by decide,
          show Nat.testBit 65280 15 = true from by decide,
          show Nat.testBit 255 0 = true from by decide,
          show Nat.testBit 255 1 = true from by decide,
          show Nat.testBit 255 2 = true from by decide,
          show Nat.testBit 255 3 = true from by decide,
          show Nat.testBit 255 4 = true from by decide,
          show Nat.testBit 255 5 = true from by decide,
          show Nat.testBit 255 6 = true from by decide,
          show Nat.testBit 255 7 = true from by decide]
    · have hb : Nat.testBit 65280 i = false := by
        apply Nat.testBit_eq_false_of_lt
        calc (65280 : Nat) < 2 ^ 16 := by norm_num
        _ ≤ 2 ^ i := Nat.pow_le_pow_right (by norm_num) h2
      have h255 : Nat.testBit 255 (i - 8) = false := by
        apply Nat.testBit_eq_false_of_lt
        calc (255 : Nat) < 2 ^ 8 := by norm_num
        _ ≤ 2 ^ (i - 8) := Nat.pow_le_pow_right (by norm_num) (by omega)
      simp [hb, h255]

theorem word_reconstruct (m l : Nat) :
    ((m <<< 8) &&& 0xff00) + (l &&& 0xff) = (m % 256) * 256 + l % 256 := by
  rw [and_ff00_shift]
  have h1 : m &&& 0xff = m % 256 := and_255_eq_mod m
  have h2 : l &&& 0xff = l % 256 := and_255_eq_mod l
  rw [h1, h2, Nat.shiftLeft_eq]

theorem signExtend16_spec (m l : Nat) :
    PacketTool.signExtend (((m <<< 8) &&& 0xff00) + (l &&& 0xff)) 16 = specBigEndianInt16 m l := by
  rw [word_reconstruct]
  have hm : m % 256 < 256 := Nat.mod_lt _ (by norm_num)
  have hl : l % 256 < 256 := Nat.mod_lt _ (by norm_num)
  unfold PacketTool.signExtend specBigEndianInt16
  simp only
  have hsb : (1 : Nat) <<< (16 - 1) = 32768 := by decide
  rw [hsb]
  have h1 : ((m % 256) * 256 + l % 256) &&& (32768 - 1) =
      ((m % 256) * 256 + l % 256) % 32768 := by
    have h := Nat.and_pow_two_sub_one_eq_mod ((m % 256) * 256 + l % 256) 15
    norm_num at h ⊢
    exact h
  have h2 : ((m % 256) * 256 + l % 256) &&& 32768 =
      (((m % 256) * 256 + l % 256).testBit 15).toNat * 32768 := by
    have h := Nat.and_two_pow ((m % 256) * 256 + l % 256) 15
    norm_num at h
    exact h
  have h3 : ((m % 256) * 256 + l % 256).testBit 15 =
      decide (((m % 256) * 256 + l % 256) / 32768 % 2 = 1) := by
    rw [Nat.testBit_to_div_mod]
  rw [h1, h2, h3]
  rcases Nat.lt_or_ge ((m % 256) * 256 + l % 256) 32768 with hc | hc
  · have hdiv : ((m % 256) * 256 + l % 256) / 32768 = 0 := Nat.div_eq_of_lt hc
    rw [hdiv, if_pos hc]
    norm_num
    omega
  · have hdiv : ((m % 256) * 256 + l % 256) / 32768 = 1 := by omega
    rw [hdiv, if_neg (by omega)]
    norm_num
    omega

/-! ## Lemmas about outbound header construction -/

theorem and_255_le (x : Nat) : x &&& 255 ≤ 255 := by
  rw [and_255_eq_mod]
  omega

theorem value_le (t : PacketTypeEnum) : t.value ≤ 255 := by
  cases t <;> decide

theorem ofValue_value (t : PacketTypeEnum) : PacketTypeEnum.ofValue t.value = some t := by
  cases t <;> rfl

theorem init_inBuffer_length (thisId : Nat) (cb : CircularBuffer) :
    (PacketTool.init thisId cb).inBuffer.length = 1025 := by
  rw [show (PacketTool.init thisId cb).inBuffer = List.replicate 1025 0 from rfl,
    List.length_replicate]

theorem init_outBuffer_length (thisId : Nat) (cb : CircularBuffer) :
    (PacketTool.init thisId cb).outBuffer.length = 1025 := by
  rw [show (PacketTool.init thisId cb).outBuffer = List.replicate 1025 0 from rfl,
    List.length_replicate]

theorem storeByte_ok {buf : List Nat} {i v : Nat} (hi : i < buf.length) (hv : v ≤ 255) :
    PacketTool.storeByte buf i v = .ok (buf.set i v) := by
  unfold PacketTool.storeByte
  rw [if_neg (by omega), if_neg (by omega)]

theorem take7_set_chain (buf : List Nat) (h : 7 ≤ buf.length) (v0 v1 v2 v3 v4 v5 v6 : Nat) :
    (((((((buf.set 0 v0).set 1 v1).set 2 v2).set 3 v3).set 4 v4).set 5 v5).set 6 v6).take 7 =
      [v0, v1, v2, v3, v4, v5, v6] := by
  apply List.ext_getElem
  · simp [List.length_take]
    omega
  · intro i h1 h2
    simp only [List.length_take, List.length_set] at h1
    have hi7 : i < 7 := by omega
    simp only [List.getElem_take, List.getElem_set]
    interval_cases i <;> simp

theorem prepareHeader_ok (pt : PacketTool) (dest : Nat) (ptype : PacketTypeEnum) (n : Nat)
    (hout : pt.outBuffer.length = 1025) (hdest : dest ≤ 255)
    (hthis : pt.thisDeviceIdentifier ≤ 255) :
    ∃ b : List Nat, pt.prepareHeader dest ptype n = .ok ({ pt with outBuffer := b }, 7) ∧
      b.take 7 = headerBytes dest pt.thisDeviceIdentifier ptype n ∧ b.length = 1025 := by
  have e1 : PacketTool.storeByte pt.outBuffer 0 0xaa = .ok (pt.outBuffer.set 0 0xaa) :=
    storeByte_ok (by omega) (by omega)
  have e2 : PacketTool.storeByte (pt.outBuffer.set 0 0xaa) 1 0x55 =
      .ok ((pt.outBuffer.set 0 0xaa).set 1 0x55) :=
    storeByte_ok (by simp [hout]) (by omega)
  have e3 : PacketTool.storeByte ((pt.outBuffer.set 0 0xaa).set 1 0x55) 2 dest =
      .ok (((pt.outBuffer.set 0 0xaa).set 1 0x55).set 2 dest) :=
    storeByte_ok (by simp [hout]) hdest
  have e4 : PacketTool.storeByte (((pt.outBuffer.set 0 0xaa).set 1 0x55).set 2 dest) 3
        pt.thisDeviceIdentifier =
      .ok ((((pt.outBuffer.set 0 0xaa).set 1 0x55).set 2 dest).set 3 pt.thisDeviceIdentifier) :=
    storeByte_ok (by simp [hout]) hthis
  have e5 : PacketTool.storeByte ((((pt.outBuffer.set 0 0xaa).set 1 0x55).set 2 dest).set 3
        pt.thisDeviceIdentifier) 4 ptype.value =
      .ok (((((pt.outBuffer.set 0 0xaa).set 1 0x55).set 2 dest).set 3
        pt.thisDeviceIdentifier).set 4 ptype.value) :=
    storeByte_ok (by simp [hout]) (value_le ptype)
  have e6 : PacketTool.storeByte (((((pt.outBuffer.set 0 0xaa).set 1 0x55).set 2 dest).set 3
        pt.thisDeviceIdentifier).set 4 ptype.value) 5 ((n >>> 8) &&& 0xff) =
      .ok ((((((pt.outBuffer.set 0 0xaa).set 1 0x55).set 2 dest).set 3
        pt.thisDeviceIdentifier).set 4 ptype.value).set 5 ((n >>> 8) &&& 0xff)) :=
    storeByte_ok (by simp [hout]) (and_255_le _)
  have e7 : PacketTool.storeByte ((((((pt.outBuffer.set 0 0xaa).set 1 0x55).set 2 dest).set 3
        pt.thisDeviceIdentifier).set 4 ptype.value).set 5 ((n >>> 8) &&& 0xff)) 6 (n &&& 0xff) =
      .ok (((((((pt.outBuffer.set 0 0xaa).set 1 0x55).set 2 dest).set 3
        pt.thisDeviceIdentifier).set 4 ptype.value).set 5 ((n >>> 8) &&& 0xff)).set 6
          (n &&& 0xff)) :=
    storeByte_ok (by simp [hout]) (and_255_le _)
  refine ⟨((((((pt.outBuffer.set 0 0xaa).set 1 0x55).set 2 dest).set 3
      pt.thisDeviceIdentifier).set 4 ptype.value).set 5 ((n >>> 8) &&& 0xff)).set 6 (n &&& 0xff),
    ?_, ?_, ?_⟩
  · unfold PacketTool.prepareHeader
    simp only [e1, e2, e3, e4, e5, e6, e7]
  · exact take7_set_chain pt.outBuffer (by omega) _ _ _ _ _ _ _
  · simp [hout]

/-! ## Lemmas about inbound header parsing and packet acceptance -/

theorem header_parse_ok {pt : PacketTool} {dest src tv m l : Nat} {t : PacketTypeEnum}
    {rest : List Nat} (hwf : pt.byteIn.WF)
    (hc : pt.byteIn.contents = 0xaa :: 0x55 :: dest :: src :: tv :: m :: l :: rest)
    (htv : PacketTypeEnum.ofValue tv = some t) :
    ∃ cb7 : CircularBuffer,
      pt.checkForPacketHeaderAvailable = .ok
        { pt with
            byteIn := cb7, pktType := t, headerValid := true,
            numPktDataBytes := ((m <<< 8) &&& 0xff00) + (l &&& 0xff),
            numDataBytesPlusChecksumByte := ((m <<< 8) &&& 0xff00) + (l &&& 0xff) + 1,
            pktChecksum := 0 + 0xaa + 0x55 + dest + src + tv + m + l,
            destDeviceIdentifierFromReceivedPkt := dest,
            sourceDeviceIdentifierFromReceivedPkt := src } ∧
      cb7.WF ∧ cb7.contents = rest := by
  obtain ⟨cb1, hr1, hw1, hc1, -, -, -, -⟩ := CircularBuffer.retrieve_cons hwf hc
  obtain ⟨cb2, hr2, hw2, hc2, -, -, -, -⟩ := CircularBuffer.retrieve_cons hw1 hc1
  obtain ⟨cb3, hr3, hw3, hc3, -, -, -, -⟩ := CircularBuffer.retrieve_cons hw2 hc2
  obtain ⟨cb4, hr4, hw4, hc4, -, -, -, -⟩ := CircularBuffer.retrieve_cons hw3 hc3
  obtain ⟨cb5, hr5, hw5, hc5, -, -, -, -⟩ := CircularBuffer.retrieve_cons hw4 hc4
  obtain ⟨cb6, hr6, hw6, hc6, -, -, -, -⟩ := CircularBuffer.retrieve_cons hw5 hc5
  obtain ⟨cb7, hr7, hw7, hc7, -, -, -, -⟩ := CircularBuffer.retrieve_cons hw6 hc6
  have hnot : ¬ pt.byteIn.available < 7 := by
    have hl := CircularBuffer.contents_length pt.byteIn
    rw [hc] at hl
    simp at hl
    omega
  refine ⟨cb7, ?_, hw7, hc7⟩
  unfold PacketTool.checkForPacketHeaderAvailable
  rw [if_neg hnot]
  simp only [CircularBuffer.retrieveE, hr1, hr2, hr3, hr4, hr5, hr6, hr7, htv]
  simp

theorem checkForPacketReady_accepts {pt : PacketTool} {dest src tv m l : Nat}
    {t : PacketTypeEnum} {rest : List Nat}
    (hv : pt.headerValid = false)
    (hwf : pt.byteIn.WF)
    (hc : pt.byteIn.contents = 0xaa :: 0x55 :: dest :: src :: tv :: m :: l :: rest)
    (htv : PacketTypeEnum.ofValue tv = some t)
    (hrest : rest.length = ((m <<< 8) &&& 0xff00) + (l &&& 0xff) + 1)
    (hin : pt.inBuffer.length = 1025)
    (hrlen : rest.length ≤ 1025)
    (hdest : dest = pt.thisDeviceIdentifier)
    (hcksum : (0xaa + 0x55 + dest + src + tv + m + l + rest.sum) % 256 = 0) :
    ∃ ptF : PacketTool, pt.checkForPacketReady = .ok (true, ptF) ∧ ptF.pktType = t ∧
      ptF.numPktDataBytes = ((m <<< 8) &&& 0xff00) + (l &&& 0xff) ∧
      ptF.destDeviceIdentifierFromReceivedPkt = dest ∧
      ptF.sourceDeviceIdentifierFromReceivedPkt = src := by
  obtain ⟨cb7, hhead, hw7, hc7⟩ := header_parse_ok hwf hc htv
  have hav7 : cb7.available = ((m <<< 8) &&& 0xff00) + (l &&& 0xff) + 1 := by
    have hl := CircularBuffer.contents_length cb7
    rw [hc7] at hl
    omega
  obtain ⟨cbF, hread, hwF, havF⟩ := CircularBuffer.readLoop_drain
    (((m <<< 8) &&& 0xff00) + (l &&& 0xff) + 1 + 1) cb7 pt.inBuffer 0 hw7 hc7
    (by omega) (by omega)
  have hno : ¬ ((0 + 0xaa + 0x55 + dest + src + tv + m + l + rest.sum) &&& 0xff ≠ 0) := by
    rw [and_255_eq_mod]
    omega
  refine ⟨{ pt with
      byteIn := cbF,
      inBuffer := List.take 0 pt.inBuffer ++ rest ++ List.drop (0 + rest.length) pt.inBuffer,
      pktType := t, headerValid := false,
      numPktDataBytes := (m <<< 8 &&& 0xff00) + (l &&& 0xff),
      numDataBytesPlusChecksumByte := (m <<< 8 &&& 0xff00) + (l &&& 0xff) + 1,
      pktChecksum := 0 + 0xaa + 0x55 + dest + src + tv + m + l + rest.sum,
      destDeviceIdentifierFromReceivedPkt := dest,
      sourceDeviceIdentifierFromReceivedPkt := src }, ?_, rfl, rfl, rfl, rfl⟩
  · unfold PacketTool.checkForPacketReady
    rw [hv, hhead]
    simp only [Bool.false_eq_true, if_false, Bool.not_eq_true]
    rw [if_neg (by simp)]
    rw [if_neg (by
      show ¬ cb7.available < ((m <<< 8) &&& 0xff00) + (l &&& 0xff) + 1
      omega)]
    unfold CircularBuffer.read
    rw [hread]
    simp only []
    rw [if_neg (by
      show ¬ dest ≠ pt.thisDeviceIdentifier
      simp [hdest])]
    have hlist : (List.take 0 pt.inBuffer ++ rest ++
        List.drop (0 + rest.length) pt.inBuffer).take
          ((m <<< 8 &&& 0xff00) + (l &&& 0xff) + 1) = rest := by
      rw [List.take_zero, List.nil_append, ← hrest, List.take_left]
    rw [hlist, if_neg hno]

/-! ## Lemmas about PacketTool.resync -/

namespace PacketTool

theorem resyncLoop_spec :
    ∀ (fuel : Nat) (pt : PacketTool), pt.byteIn.WF → pt.byteIn.available ≤ fuel →
      (resyncLoop fuel pt).byteIn.WF ∧
      (resyncLoop fuel pt).byteIn.contents =
        pt.byteIn.contents.dropWhile (fun b => b ≠ 0xaa) ∧
      (resyncLoop fuel pt).resyncCount = pt.resyncCount := by
  intro fuel
  induction fuel with
  | zero =>
    intro pt h hle
    have hav : pt.byteIn.available = 0 := by omega
    have hc : pt.byteIn.contents = [] := by
      have := CircularBuffer.contents_length pt.byteIn
      rw [hav] at this
      exact List.eq_nil_of_length_eq_zero this
    exact ⟨h, by rw [show resyncLoop 0 pt = pt from rfl, hc]; rfl, rfl⟩
  | succ f ih =>
    intro pt h hle
    rcases Nat.eq_zero_or_pos pt.byteIn.available with hav | hav
    · have hc : pt.byteIn.contents = [] := by
        have := CircularBuffer.contents_length pt.byteIn
        rw [hav] at this
        exact List.eq_nil_of_length_eq_zero this
      have hloop : resyncLoop (f + 1) pt = pt := by
        conv_lhs => unfold resyncLoop
        rw [if_neg (by omega)]
      rw [hloop, hc]
      exact ⟨h, rfl, rfl⟩
    · obtain ⟨v, L, hc⟩ : ∃ v L, pt.byteIn.contents = v :: L := by
        cases hcc : pt.byteIn.contents with
        | nil =>
          have := CircularBuffer.contents_length pt.byteIn
          rw [hcc] at this
          simp at this
          omega
        | cons v L => exact ⟨v, L, rfl⟩
      have hpeek : pt.byteIn.peek = some v := CircularBuffer.peek_head h hc
      rcases eq_or_ne v 0xaa with hsync | hsync
      · have hpfv : pt.peekForValue 0xaa = .ok (true, pt) := by
          unfold peekForValue
          rw [hpeek]
          simp [hsync]
        have hloop : resyncLoop (f + 1) pt = pt := by
          conv_lhs => unfold resyncLoop
          rw [if_pos hav, hpfv]
        refine ⟨by rw [hloop]; exact h, ?_, by rw [hloop]⟩
        rw [hloop, hc, List.dropWhile_cons]
        rw [if_neg (by simp [hsync])]
      · obtain ⟨cb1, hret, hwf1, hc1, _, _, _, hav1⟩ := CircularBuffer.retrieve_cons h hc
        have hpfv : pt.peekForValue 0xaa = .ok (false, { pt with byteIn := cb1 }) := by
          unfold peekForValue
          rw [hpeek]
          simp [hsync, hret]
        have hloop : resyncLoop (f + 1) pt = resyncLoop f { pt with byteIn := cb1 } := by
          conv_lhs => unfold resyncLoop
          rw [if_pos hav, hpfv]
        have hble : ({ pt with byteIn := cb1 } : PacketTool).byteIn.available ≤ f := by
          show cb1.available ≤ f
          omega
        obtain ⟨hw, hcont, hcnt⟩ := ih { pt with byteIn := cb1 } hwf1 hble
        rw [hloop]
        refine ⟨hw, ?_, hcnt⟩
        have hproj : ({ pt with byteIn := cb1 } : PacketTool).byteIn.contents = L := by
          show cb1.contents = L
          exact hc1
        rw [hcont, hproj, hc, List.dropWhile_cons]
        rw [if_pos (by simp [hsync])]

theorem resync_spec {pt : PacketTool} (h : pt.byteIn.WF) :
    (pt.resync).byteIn.WF ∧
      (pt.resync).byteIn.contents = pt.byteIn.contents.dropWhile (fun b => b ≠ 0xaa) ∧
      (pt.resync).resyncCount = pt.resyncCount + 1 := by
  unfold resync
  obtain ⟨hw, hc, hcnt⟩ := resyncLoop_spec pt.byteIn.available { pt with resyncCount := pt.resyncCount + 1 } h (by simp)
  exact ⟨hw, hc, by rw [hcnt]⟩

end PacketTool

theorem head_dropWhile_ne_aa (l : List Nat) :
    ∀ v, (l.dropWhile (fun b => b ≠ 0xaa)).head? = some v → v = 0xaa := by
  induction l with
  | nil => intro v hv; simp at hv
  | cons a rest ih =>
    intro v hv
    rw [List.dropWhile_cons] at hv
    split_ifs at hv with hcond
    · exact ih v hv
    · simp at hcond
      simp at hv
      omega

/-! ## Claim theorems -/

/-- Claim C1 (refuting evaluation): on a CircularBuffer of capacity 2, two
appends with no retrieves leave `available() = 0`, not
(appends − retrieves) clamped to [0, 2] = 2, and neither appended value can
be retrieved.  The insert cursor wraps at `bufferSize` instead of
`bufferSize + 1`, so the C-th append silently discards everything, although
`append`'s own docstring promises that up to `bufferSize` values can be
appended before an overrun. -/
theorem claimC1_available_clamp_fails_eval :
    ((CircularBuffer.init 2).appendList [10, 20]).available = 0 ∧
      ¬ ((CircularBuffer.init 2).appendList [10, 20]).available = 2 ∧
      ((CircularBuffer.init 2).appendList [10, 20]).retrieve = none ∧
      ((CircularBuffer.init 2).appendList [10, 20]).contents = [] := by
  decide

/-- Claim C6 (refuting evaluation): `read` (the spec's `readUpTo`) with
`pNumBytesToRead = 1` on a buffer holding two values removes BOTH values
(`count <= pNumBytesToRead` runs one iteration too many) and returns 2; and
on an empty buffer with `pOffset = 3` it returns 3 — the offset plus the
count, not the number of values stored. -/
theorem claimC6_read_overconsumes_eval :
    ((((CircularBuffer.init 4).appendList [5, 6]).read (List.replicate 4 0) 0 1).toOption.map
        fun r => (r.1.available, r.2.1, r.2.2)) = some (0, [5, 6, 0, 0], 2) ∧
      (((CircularBuffer.init 4).read (List.replicate 4 0) 3 1).toOption.map
        fun r => r.2.2) = some 3 := by
  decide

/-- Claim C7: whenever resync is triggered it increments the diagnostic
`resyncCount` by exactly one and removes bytes from the front of the inbound
buffer until the buffer is empty or the next byte equals 0xAA; a front byte
equal to 0xAA is never consumed and remains the next retrievable byte. -/
theorem claimC7_resync (pt : PacketTool) (h : pt.byteIn.WF) :
    (pt.resync).resyncCount = pt.resyncCount + 1 ∧
      (pt.resync).byteIn.contents = pt.byteIn.contents.dropWhile (fun b => b ≠ 0xaa) ∧
      (∀ v, (pt.resync).byteIn.contents.head? = some v → v = 0xaa) := by
  obtain ⟨hw, hc, hcnt⟩ := PacketTool.resync_spec h
  refine ⟨hcnt, hc, ?_⟩
  intro v hv
  rw [hc] at hv
  exact head_dropWhile_ne_aa _ v hv

/-- Witness for C7 at a concrete inbound buffer `[1, 2, 0xAA, 5]`. -/
theorem claimC7_resync_witness :
    c7ExampleTool.byteIn.WF ∧
      (c7ExampleTool.resync.resyncCount = c7ExampleTool.resyncCount + 1 ∧
        c7ExampleTool.resync.byteIn.contents =
          c7ExampleTool.byteIn.contents.dropWhile (fun b => b ≠ 0xaa) ∧
        (∀ v, c7ExampleTool.resync.byteIn.contents.head? = some v → v = 0xaa)) ∧
      c7ExampleTool.resync.byteIn.contents = [0xaa, 5] :=
  ⟨by decide, claimC7_resync c7ExampleTool (by decide), by decide⟩

/-- Claim C10: in every reachable state of a CircularBuffer of capacity C,
`available()` is at most C − 1 (never C), and after exactly C consecutive
appends to an empty buffer the insert and retrieve cursors coincide,
`available()` reports 0, and no buffered value can be retrieved. -/
theorem claimC10_invariant (C : Nat) (hC : 0 < C) :
    (∀ ops : List BufOp, (CircularBuffer.runOps C ops).available ≤ C - 1) ∧
      (∀ vs : List Nat, vs.length = C →
        (CircularBuffer.runOps C (vs.map BufOp.appendOp)).nextInsertIndex =
            (CircularBuffer.runOps C (vs.map BufOp.appendOp)).nextRetrieveIndex ∧
          (CircularBuffer.runOps C (vs.map BufOp.appendOp)).available = 0 ∧
          (CircularBuffer.runOps C (vs.map BufOp.appendOp)).retrieve = none) := by
  have hfold : ∀ (vs : List Nat) (cb : CircularBuffer),
      (vs.map BufOp.appendOp).foldl CircularBuffer.applyOp cb = cb.appendList vs := by
    intro vs
    induction vs with
    | nil => intro cb; rfl
    | cons v rest ihv => intro cb; exact ihv (cb.append v)
  constructor
  · intro ops
    have hwf := CircularBuffer.wf_runOps hC ops
    have hlt := CircularBuffer.available_lt hwf
    have hsize : (CircularBuffer.runOps C ops).bufferSize = C :=
      CircularBuffer.foldl_bufferSize ops (CircularBuffer.init C)
    omega
  · intro vs hvs
    have hrun : CircularBuffer.runOps C (vs.map BufOp.appendOp) =
        (CircularBuffer.init C).appendList vs := hfold vs (CircularBuffer.init C)
    obtain ⟨hins, hret, hsz, hwf⟩ :=
      CircularBuffer.appendList_indices (CircularBuffer.wf_init hC) vs
    rw [hrun]
    have hi0 : ((CircularBuffer.init C).appendList vs).nextInsertIndex = 0 := by
      rw [hins]
      show (0 + vs.length) % C = 0
      rw [hvs]
      simp
    have hr0 : ((CircularBuffer.init C).appendList vs).nextRetrieveIndex = 0 := hret
    have hav : ((CircularBuffer.init C).appendList vs).available = 0 := by
      unfold CircularBuffer.available
      rw [hi0, hr0]
      simp
    exact ⟨by rw [hi0, hr0], hav, CircularBuffer.retrieve_none.mpr hav⟩

/-- Witness for C10 at capacity 2, with a concrete operation sequence and a
concrete pair of appended values. -/
theorem claimC10_invariant_witness :
    (CircularBuffer.runOps 2 [BufOp.appendOp 9, BufOp.retrieveOp, BufOp.appendOp 8]).available ≤ 1 ∧
      (CircularBuffer.runOps 2 [BufOp.appendOp 4, BufOp.appendOp 5]).nextInsertIndex =
          (CircularBuffer.runOps 2 [BufOp.appendOp 4, BufOp.appendOp 5]).nextRetrieveIndex ∧
        (CircularBuffer.runOps 2 [BufOp.appendOp 4, BufOp.appendOp 5]).available = 0 ∧
        (CircularBuffer.runOps 2 [BufOp.appendOp 4, BufOp.appendOp 5]).retrieve = none :=
  ⟨(claimC10_invariant 2 (by decide)).1 [BufOp.appendOp 9, BufOp.retrieveOp, BufOp.appendOp 8],
   by
    have h := (claimC10_invariant 2 (by decide)).2 [4, 5] (by decide)
    exact h⟩

/-- Claim C5: round trip — for every packet type in the enumeration and every
payload that fits the inbound buffer, when the destination id equals this
device's identifier, `prepareHeader` writes exactly the header bytes
`[0xAA, 0x55, dest, thisId, type, lenMSB, lenLSB]`, and appending those 7
bytes, then the payload, then a checksum byte making the total byte sum
≡ 0 (mod 256) to the inbound CircularBuffer makes `checkForPacketReady`
return true with the received packet type, payload length, and
destination/source ids equal to the values given to `prepareHeader`. -/
theorem claimC5_round_trip (C thisId chk : Nat) (ptype : PacketTypeEnum) (payload : List Nat)
    (hId : thisId ≤ 255) (hfit : payload.length + 9 ≤ C) (hlen : payload.length ≤ 1023)
    (hsum : ((headerBytes thisId thisId ptype payload.length).sum + payload.sum + chk) %
      256 = 0) :
    (((PacketTool.init thisId (CircularBuffer.init C)).prepareHeader thisId ptype
          payload.length).toOption.map fun r => (r.1.outBuffer.take 7, r.2)) =
        some (headerBytes thisId thisId ptype payload.length, 7) ∧
      ((mkReceiver thisId C (headerBytes thisId thisId ptype payload.length ++ payload ++
          [chk])).checkForPacketReady.toOption.map fun r =>
          (r.1, r.2.pktType, r.2.numPktDataBytes, r.2.destDeviceIdentifierFromReceivedPkt,
            r.2.sourceDeviceIdentifierFromReceivedPkt)) =
        some (true, ptype, payload.length, thisId, thisId) := by
  have hN : ((((payload.length >>> 8) &&& 0xff) <<< 8) &&& 0xff00) +
      ((payload.length &&& 0xff) &&& 0xff) = payload.length := by
    rw [word_reconstruct, and_255_eq_mod, and_255_eq_mod, Nat.shiftRight_eq_div_pow]
    norm_num
    omega
  constructor
  · obtain ⟨b, he, ht, hb⟩ := prepareHeader_ok (PacketTool.init thisId (CircularBuffer.init C))
      thisId ptype payload.length (init_outBuffer_length thisId _) hId hId
    rw [he]
    simp only [Except.toOption, Option.map]
    exact congrArg some (congrArg (fun z => (z, 7)) ht)
  · have hwf0 := CircularBuffer.wf_init (C := C) (by omega)
    have hframe_len : (headerBytes thisId thisId ptype payload.length ++ payload ++
        [chk]).length = payload.length + 8 := by
      simp [headerBytes]
    obtain ⟨hwfIn, hcIn, -, -, -⟩ := @CircularBuffer.contents_appendList _ hwf0
      (headerBytes thisId thisId ptype payload.length ++ payload ++ [chk])
      (by
        rw [CircularBuffer.available_init, hframe_len]
        show 0 + (payload.length + 8) ≤ C - 1
        omega)
    have hcons : (mkReceiver thisId C (headerBytes thisId thisId ptype payload.length ++
        payload ++ [chk])).byteIn.contents =
        0xaa :: 0x55 :: thisId :: thisId :: ptype.value ::
          ((payload.length >>> 8) &&& 0xff) :: (payload.length &&& 0xff) ::
            (payload ++ [chk]) := by
      show ((CircularBuffer.init C).appendList (headerBytes thisId thisId ptype
        payload.length ++ payload ++ [chk])).contents = _
      rw [hcIn, CircularBuffer.contents_init]
      simp [headerBytes]
    have hrest : (payload ++ [chk]).length =
        ((((payload.length >>> 8) &&& 0xff) <<< 8) &&& 0xff00) +
          ((payload.length &&& 0xff) &&& 0xff) + 1 := by
      rw [hN]
      simp
    have hrlen : (payload ++ [chk]).length ≤ 1025 := by
      simp
      omega
    have hcksum : (0xaa + 0x55 + thisId + thisId + ptype.value +
        ((payload.length >>> 8) &&& 0xff) + (payload.length &&& 0xff) +
          (payload ++ [chk]).sum) % 256 = 0 := by
      simp only [headerBytes, List.sum_cons, List.sum_nil, List.sum_append,
        List.sum_cons] at hsum ⊢
      omega
    obtain ⟨ptF, hready, hty, hnum, hdst, hsrc⟩ :=
      @checkForPacketReady_accepts
        (mkReceiver thisId C (headerBytes thisId thisId ptype payload.length ++
          payload ++ [chk]))
        thisId thisId ptype.value ((payload.length >>> 8) &&& 0xff)
        (payload.length &&& 0xff) ptype (payload ++ [chk])
        rfl hwfIn hcons (ofValue_value ptype) hrest (init_inBuffer_length thisId _)
        hrlen rfl hcksum
    rw [hready]
    simp only [Except.toOption, Option.map, Option.some_inj]
    rw [hty, hdst, hsrc, hnum, hN]

/-- Witness for C5 at capacity 20, device id 1, packet type ACK_PKT, payload
`[5]`, checksum byte 248 (header sum 259 + payload 5 + 248 = 512 ≡ 0). -/
theorem claimC5_round_trip_witness :
    ((1 : Nat) ≤ 255 ∧ ([5] : List Nat).length + 9 ≤ 20 ∧ ([5] : List Nat).length ≤ 1023 ∧
      ((headerBytes 1 1 PacketTypeEnum.ACK_PKT ([5] : List Nat).length).sum +
        ([5] : List Nat).sum + 248) % 256 = 0) ∧
      ((((PacketTool.init 1 (CircularBuffer.init 20)).prepareHeader 1 PacketTypeEnum.ACK_PKT
            ([5] : List Nat).length).toOption.map fun r => (r.1.outBuffer.take 7, r.2)) =
          some (headerBytes 1 1 PacketTypeEnum.ACK_PKT ([5] : List Nat).length, 7) ∧
        ((mkReceiver 1 20 (headerBytes 1 1 PacketTypeEnum.ACK_PKT ([5] : List Nat).length ++
            [5] ++ [248])).checkForPacketReady.toOption.map fun r =>
            (r.1, r.2.pktType, r.2.numPktDataBytes, r.2.destDeviceIdentifierFromReceivedPkt,
              r.2.sourceDeviceIdentifierFromReceivedPkt)) =
          some (true, PacketTypeEnum.ACK_PKT, ([5] : List Nat).length, 1, 1)) :=
  ⟨⟨by decide, by decide, by decide, by decide⟩,
   claimC5_round_trip 20 1 248 PacketTypeEnum.ACK_PKT [5] (by decide) (by decide) (by decide)
     (by decide)⟩

set_option maxRecDepth 40000 in
/-- Claim C2 (refuting evaluation): with a valid header for a zero-payload
packet (`numDataBytesPlusChecksumByte = 1`) and 2 trailing bytes available —
the checksum byte 0xFF and the next packet's sync byte 0xAA —
`checkForPacketReady` accepts the packet but consumes BOTH bytes
(`CircularBuffer.read`'s loop `while count <= pNumBytesToRead` runs one
iteration too many), leaving `available() = 0` instead of 1: the following
packet's 0xAA is destroyed.  Acceptance itself (destination match and zero
checksum) behaves as claimed. -/
theorem claimC2_consumes_extra_byte_eval :
    c2ExampleTool.byteIn.available = 9 ∧
      (c2ExampleTool.checkForPacketReady.toOption.map
        fun r => (r.1, r.2.byteIn.available)) = some (true, 0) := by
  decide

set_option maxRecDepth 40000 in
/-- Claim C3 (refuting evaluation): a header whose packet-type byte is the
undefined code 4 makes `checkForPacketHeaderAvailable` raise `ValueError`
from `PacketTypeEnum(pktTypeInt)`; the error propagates out of
`checkForPacketReady` (the polling loop catches only `ConnectionResetError`
and `SocketBroken`), instead of mapping the code to an unknown variant and
reporting a status. -/
theorem claimC3_unknown_type_crashes_eval :
    exceptErr c3ExampleTool.checkForPacketReady = some PyError.valueError := by
  decide

set_option maxRecDepth 40000 in
/-- Claim C4 (refuting evaluation): `sendString` computes the checksum byte as
`0x100 - (checksum & 0xff)` with no reduction mod 256.  For dest = 0, type
NO_PKT and the empty string the preceding frame bytes sum to 256 ≡ 0, the
computed value is 256, and storing it into the `array('B')` out-buffer
raises OverflowError instead of writing 0.  For a sum not ≡ 0 (here
dest = 2, type LOG_MESSAGE, text "hi") the transmitted frame does sum to
0 mod 256 as claimed. -/
theorem claimC4_checksum_overflow_eval :
    exceptErr (c4ExampleTool.sendString 0 PacketTypeEnum.NO_PKT []) =
        some PyError.overflowError ∧
      ((c4ExampleTool.sendString 2 PacketTypeEnum.LOG_MESSAGE [104, 105]).toOption.map
        fun r => (r.2.length, r.2.sum % 256)) = some (11, 0) := by
  decide

/-- Claim C8 counterexample: on a link on which no connection has ever been
established (`clientSocket` is `None`, the freshly constructed state),
`disconnect()` is not a no-op returning success — `None.shutdown` raises
`AttributeError`, which the `except OSError` clause does not catch. -/
theorem claimC8_counterexample :
    exceptErr (EthernetLink.init.disconnect).2 = some PyError.attributeError ∧
      ¬ exceptErr (EthernetLink.init.disconnect).2 = none ∧
      ¬ exceptErr (EthernetLink.init.disconnect).2 = some PyError.socketBroken := by
  decide

/-- Claim C8 amended: once a connection has been established (`clientSocket`
holds a socket), `disconnect()` always resets the inbound receive buffer and
clears the connected flag, tolerates a shutdown failure, raises only
SocketBroken and exactly when close fails, and is idempotent on the link
state; only a call before any connection was ever accepted raises
AttributeError instead of being a no-op. -/
theorem claimC8_amended (e : EthernetLink) (s : SocketState)
    (h : e.clientSocket = some s) :
    (e.disconnect).1.receiveBuf = e.receiveBuf.reset ∧
      (e.disconnect).1.connected = false ∧
      (e.disconnect).2 = (if s.closeRaisesOSError then Except.error PyError.socketBroken
        else Except.ok 0) ∧
      ((e.disconnect).1.disconnect).1 = (e.disconnect).1 := by
  obtain ⟨rb, cn, cs⟩ := e
  simp only at h
  subst h
  obtain ⟨sh, cl⟩ := s
  cases cl <;>
    simp [EthernetLink.disconnect, CircularBuffer.reset]

/-- Witness for the amended C8 at a connected link whose socket fails on
shutdown (tolerated) and closes cleanly. -/
theorem claimC8_amended_witness :
    c8ExampleLink.clientSocket =
        some { shutdownRaisesOSError := true, closeRaisesOSError := false } ∧
      ((c8ExampleLink.disconnect).1.receiveBuf = c8ExampleLink.receiveBuf.reset ∧
        (c8ExampleLink.disconnect).1.connected = false ∧
        (c8ExampleLink.disconnect).2 =
          (if ({ shutdownRaisesOSError := true, closeRaisesOSError := false } :
              SocketState).closeRaisesOSError then Except.error PyError.socketBroken
            else Except.ok 0) ∧
        ((c8ExampleLink.disconnect).1.disconnect).1 = (c8ExampleLink.disconnect).1) :=
  ⟨rfl, claimC8_amended c8ExampleLink _ rfl⟩

/-- Claim C9: `parseDuplexIntegerFromPacket` reads a big-endian 16-bit
two's-complement integer and its immediately following duplicate, advances
the cursor by exactly 4 in every case, returns DUPLEX_MATCH_ERROR iff the
two decoded values differ (PACKET_VALID otherwise), and returns the first
(primary) decoded value in both cases. -/
theorem claimC9_parse_duplex (pt : PacketTool) (pIndex : Nat)
    (h4 : pIndex + 4 ≤ pt.inBuffer.length) :
    (pt.parseDuplexIntegerFromPacket pIndex).2.1 = pIndex + 4 ∧
      (pt.parseDuplexIntegerFromPacket pIndex).2.2 =
        specBigEndianInt16 (pt.inBuffer.getD pIndex 0) (pt.inBuffer.getD (pIndex + 1) 0) ∧
      ((pt.parseDuplexIntegerFromPacket pIndex).1 = PacketStatusEnum.DUPLEX_MATCH_ERROR ↔
        specBigEndianInt16 (pt.inBuffer.getD pIndex 0) (pt.inBuffer.getD (pIndex + 1) 0) ≠
          specBigEndianInt16 (pt.inBuffer.getD (pIndex + 2) 0)
            (pt.inBuffer.getD (pIndex + 3) 0)) ∧
      ((pt.parseDuplexIntegerFromPacket pIndex).1 = PacketStatusEnum.PACKET_VALID ↔
        specBigEndianInt16 (pt.inBuffer.getD pIndex 0) (pt.inBuffer.getD (pIndex + 1) 0) =
          specBigEndianInt16 (pt.inBuffer.getD (pIndex + 2) 0)
            (pt.inBuffer.getD (pIndex + 3) 0)) := by
  have hproj : pt.parseDuplexIntegerFromPacket pIndex =
      ((if specBigEndianInt16 (pt.inBuffer.getD pIndex 0) (pt.inBuffer.getD (pIndex + 1) 0) =
          specBigEndianInt16 (pt.inBuffer.getD (pIndex + 2) 0) (pt.inBuffer.getD (pIndex + 3) 0)
        then PacketStatusEnum.PACKET_VALID else PacketStatusEnum.DUPLEX_MATCH_ERROR),
       pIndex + 4,
       specBigEndianInt16 (pt.inBuffer.getD pIndex 0) (pt.inBuffer.getD (pIndex + 1) 0)) := by
    simp only [PacketTool.parseDuplexIntegerFromPacket, signExtend16_spec]
  have h1 : (pt.parseDuplexIntegerFromPacket pIndex).2.1 = pIndex + 4 := by rw [hproj]
  have h2 : (pt.parseDuplexIntegerFromPacket pIndex).2.2 =
      specBigEndianInt16 (pt.inBuffer.getD pIndex 0) (pt.inBuffer.getD (pIndex + 1) 0) := by
    rw [hproj]
  have h3 : (pt.parseDuplexIntegerFromPacket pIndex).1 =
      (if specBigEndianInt16 (pt.inBuffer.getD pIndex 0) (pt.inBuffer.getD (pIndex + 1) 0) =
          specBigEndianInt16 (pt.inBuffer.getD (pIndex + 2) 0) (pt.inBuffer.getD (pIndex + 3) 0)
        then PacketStatusEnum.PACKET_VALID else PacketStatusEnum.DUPLEX_MATCH_ERROR) := by
    rw [hproj]
  have hiff : ∀ a b : Int,
      (((if a = b then PacketStatusEnum.PACKET_VALID else PacketStatusEnum.DUPLEX_MATCH_ERROR) =
          PacketStatusEnum.DUPLEX_MATCH_ERROR) ↔ a ≠ b) ∧
      (((if a = b then PacketStatusEnum.PACKET_VALID else PacketStatusEnum.DUPLEX_MATCH_ERROR) =
          PacketStatusEnum.PACKET_VALID) ↔ a = b) := by
    intro a b
    by_cases hv : a = b
    · rw [if_pos hv]
      exact ⟨⟨fun hcon => absurd hcon (by decide), fun hne => absurd hv hne⟩,
        ⟨fun _ => hv, fun _ => rfl⟩⟩
    · rw [if_neg hv]
      exact ⟨⟨fun _ => hv, fun _ => rfl⟩,
        ⟨fun hcon => absurd hcon (by decide), fun heq => absurd heq hv⟩⟩
  refine ⟨h1, h2, ?_, ?_⟩
  · rw [h3]
    exact (hiff _ _).1
  · rw [h3]
    exact (hiff _ _).2

/-- Witness for C9: primary 100, duplicate 101 at cursor 0 yields
DUPLEX_MATCH_ERROR, cursor 4, value 100, matching the specification's
duplex-mismatch example. -/
theorem claimC9_parse_duplex_witness :
    0 + 4 ≤ c9ExampleTool.inBuffer.length ∧
      ((c9ExampleTool.parseDuplexIntegerFromPacket 0).2.1 = 0 + 4 ∧
        (c9ExampleTool.parseDuplexIntegerFromPacket 0).2.2 =
          specBigEndianInt16 (c9ExampleTool.inBuffer.getD 0 0) (c9ExampleTool.inBuffer.getD (0 + 1) 0) ∧
        ((c9ExampleTool.parseDuplexIntegerFromPacket 0).1 = PacketStatusEnum.DUPLEX_MATCH_ERROR ↔
          specBigEndianInt16 (c9ExampleTool.inBuffer.getD 0 0) (c9ExampleTool.inBuffer.getD (0 + 1) 0) ≠
            specBigEndianInt16 (c9ExampleTool.inBuffer.getD (0 + 2) 0)
              (c9ExampleTool.inBuffer.getD (0 + 3) 0)) ∧
        ((c9ExampleTool.parseDuplexIntegerFromPacket 0).1 = PacketStatusEnum.PACKET_VALID ↔
          specBigEndianInt16 (c9ExampleTool.inBuffer.getD 0 0) (c9ExampleTool.inBuffer.getD (0 + 1) 0) =
            specBigEndianInt16 (c9ExampleTool.inBuffer.getD (0 + 2) 0)
              (c9ExampleTool.inBuffer.getD (0 + 3) 0))) ∧
      c9ExampleTool.parseDuplexIntegerFromPacket 0 =
        (PacketStatusEnum.DUPLEX_MATCH_ERROR, 4, 100) :=
  ⟨by decide, claimC9_parse_duplex c9ExampleTool 0 (by decide), by decide⟩

end SpudLink
